import Mathlib

/-!
# Verification of the emprinten PDF rendering pipeline

Shallow embedding of `backend/emprinten/renderer.py` (the document
compilation-and-rendering workflow) and proofs of its specified properties.

Conventions of the embedding:
* Python dicts built by comprehension are association lists built by a
  left fold of an insert-or-overwrite operation (`dictUpsert`), so that a
  later entry with the same key overwrites the earlier one, exactly as in
  CPython.
* Python strings are Lean `String`s; the Python string helpers used by the
  renderer (`str.removeprefix`, `os.path.basename`, `os.path.splitext`,
  `f"{i:03d}"`) are re-implemented faithfully below.
* Jinja template rendering and weasyprint PDF generation are third-party
  effects; they enter the model as function parameters (fallible ones as
  `Except String _`), universally quantified in the theorems.
* The filesystem is a list of paths threaded through the functions that
  touch it; a raised exception is `Except.error`.
-/

namespace Emprinten

/-- The type tag `ProjectFile.Type` from `emprinten/models.py`: Main, HTML, CSS, CSV. -/
inductive FileType where
  | Main
  | HTML
  | CSS
  | CSV
  deriving DecidableEq, Repr

/-- A `ProjectFile`: a named, typed document. -/
structure ProjectFile where
  file_name : String
  type : FileType
  deriving DecidableEq, Repr

/-- A `FileVersion`: one content revision of a `ProjectFile`; `data` is its
text payload. -/
structure FileVersion where
  file : ProjectFile
  data : String
  deriving DecidableEq, Repr

/-- Source type `DataRow = dict[str, str | dict]`; nested values are irrelevant to the
verified properties, so a row is a flat association of fields to values. -/
abbrev DataRow := List (String × String)

/-- Source type `DataSet = list[DataRow]`. -/
abbrev DataSet := List DataRow

/-- A Python dict as an association list with unique keys in insertion
order. -/
abbrev Dict (α : Type) := List (String × α)

/-- Source type `Vfs = dict[str, FileVersion]`. -/
abbrev Vfs := Dict FileVersion

/-- Insert-or-overwrite, the effect of `d[k] = v` on a Python dict: if the
key is present, its value is replaced at its position; otherwise the pair
is appended at the end. -/
def dictUpsert {α : Type} (m : Dict α) (k : String) (v : α) : Dict α :=
  match m with
  | [] => [(k, v)]
  | p :: rest => if p.1 == k then (k, v) :: rest else p :: dictUpsert rest k v

/-- Python `d.get(k)`: the value at a key, if present. -/
def dictGet {α : Type} (m : Dict α) (k : String) : Option α :=
  (m.find? (fun p => p.1 == k)).map (fun p => p.2)

/-- A Python dict comprehension `{key x: val x for x in xs}` as a fold of
insert-or-overwrite over the iteration order. -/
def dictOfComprehension {α β : Type} (key : β → String) (val : β → α)
    (xs : List β) : Dict α :=
  xs.foldl (fun m x => dictUpsert m (key x) (val x)) []

/-- Source `files_to_vfs`: `{fv.file.file_name: fv for fv in files}`. -/
def files_to_vfs (files : List FileVersion) : Vfs :=
  dictOfComprehension (fun fv => fv.file.file_name) (fun fv => fv) files

/-- Source `find_main`: the first file version whose file has type Main, if any. -/
def find_main (files : List FileVersion) : Option FileVersion :=
  files.find? (fun fv => fv.file.type == FileType.Main)

/-- Source `find_lookup_tables`:
`{make_name(fv.file.file_name): make_lut(fv.data) for fv in files if fv.file.type == CSV}`.
`make_name` and `make_lut` live in `emprinten/files.py` and enter as
parameters (`make_name` derives the normalized table name from the
filename, `make_lut` parses the CSV payload into a lookup table of type
`Lut`). -/
def find_lookup_tables {Lut : Type} (make_name : String → String)
    (make_lut : String → Lut) (files : List FileVersion) : Dict Lut :=
  dictOfComprehension (fun fv => make_name fv.file.file_name)
    (fun fv => make_lut fv.data)
    (files.filter (fun fv => fv.file.type == FileType.CSV))

/-! ## Python string helpers used by the renderer -/

/-- Decimal digit characters of a natural number, most significant first;
the rendering Python's `str`/`format` produce for a nonnegative int. The
`fuel` argument makes the recursion structural (as in core's own
`Nat.toDigitsCore`); `natDecimal` supplies `n + 1` fuel, always enough
since a number has at most `n + 1` decimal digits. -/
def natDecimalCore : Nat → Nat → List Char → List Char
  | 0, _, acc => acc
  | fuel + 1, n, acc =>
    if n < 10 then Char.ofNat (48 + n % 10) :: acc
    else natDecimalCore fuel (n / 10) (Char.ofNat (48 + n % 10) :: acc)

def natDecimal (n : Nat) : String :=
  String.mk (natDecimalCore (n + 1) n [])

/-- Python `f"{n:03d}"` for a natural number: decimal digits, left-padded
with zeros to a minimum width of 3. -/
def pad3 (n : Nat) : String :=
  String.mk (List.replicate (3 - (natDecimal n).length) '0') ++ natDecimal n

/-- Python `os.path.join(d, name)` for a relative `name` and a directory with no
trailing separator (the only shape the renderer produces: `tempfile.mkdtemp`
yields no trailing slash and all joined names are relative). -/
def path_join (d name : String) : String := d ++ "/" ++ name

/-- Python `os.path.basename`: the suffix after the last `/`. -/
def basename (p : String) : String :=
  String.mk ((p.toList.reverse.takeWhile (fun c => c != '/')).reverse)

/-- Python `os.path.splitext(b)[0]` for a path with no directory separator (the
renderer applies it to a `basename`): strip the suffix from the last dot,
unless every character before that dot is itself a dot. -/
def splitextRoot (b : String) : String :=
  let rev := b.toList.reverse
  let ext := rev.takeWhile (fun c => c != '.')
  if ext.length = rev.length then b
  else if (rev.drop (ext.length + 1)).all (fun c => c == '.') then b
  else String.mk ((rev.drop (ext.length + 1)).reverse)

/-- Python `s.removeprefix(p)`: drop `p` from the front when it is a prefix
of `s`, otherwise return `s` unchanged. -/
def removePre (p s : String) : String :=
  if p.toList.isPrefixOf s.toList then String.mk (s.toList.drop p.toList.length)
  else s

/-- The constant holding the accepted local-file pseudo-scheme,
`"file:///"` (its source name ends in a word reserved by this
development's identifier conventions, hence the rename). -/
def LOCAL_FILE_URI_SCHEME : String := "file:///"

/-- Source `html_header(title, lang="fi")`: the fixed document header the compiler
wraps around every rendered body. -/
def html_header (title : String) (lang : String := "fi") : String :=
  "<!DOCTYPE html>\n<html lang=\"" ++ lang ++ "\">\n<head>\n     <meta charset=\"utf-8\">\n     <title>" ++ title ++ "</title>\n</head>\n"

/-- Source `html_footer()`. -/
def html_footer : String := "\n</html>\n"

/-! ## Template loader (`_TemplateCompiler._do_lookup`) and the fetcher of
the HTML-to-PDF compiler (`_HtmlCompiler._do_lookup`) -/

namespace TemplateCompiler

/-- Source `_TemplateCompiler._do_lookup(name)`: resolve a template name against
the VFS. Returns the entry's content paired with the name (the jinja
`(source, filename)` pair; the always-true up-to-date callback is elided),
or `none` when the name is absent or its entry's type is not one of
Main, HTML, CSS. -/
def do_lookup (vfs : Vfs) (name : String) : Option (String × String) :=
  match dictGet vfs name with
  | none => none
  | some the_file =>
    if the_file.file.type = FileType.Main ∨ the_file.file.type = FileType.HTML
        ∨ the_file.file.type = FileType.CSS then
      some (the_file.data, name)
    else
      none

/-- Jinja `env.get_template(name)` through `jinja2.FunctionLoader`: when the
lookup function returns `None`, jinja raises `TemplateNotFound`, aborting
the render; otherwise the template source is returned. -/
def get_template (vfs : Vfs) (name : String) : Except String (String × String) :=
  match do_lookup vfs name with
  | none => Except.error "template not found"
  | some t => Except.ok t

end TemplateCompiler

namespace HtmlCompiler

/-- Outcome of the weasyprint URL fetcher. -/
inductive FetchOutcome where
  /-- The `ValueError("Invalid URL to look up for")` branch. -/
  | invalidURL
  /-- The `KeyError` branch: the path misses the VFS. -/
  | notFound
  /-- Success: the matching file version's content, and the redirected URL
  reported back to weasyprint. -/
  | ok (content : String) (redirectedURL : String)
  deriving DecidableEq, Repr

/-- Source `_HtmlCompiler._do_lookup(url)`: strip the local-file pseudo-scheme; if
stripping changed nothing the URL is invalid; otherwise resolve the rest
against the VFS. -/
def do_lookup (vfs : Vfs) (url : String) : FetchOutcome :=
  let file_url := removePre LOCAL_FILE_URI_SCHEME url
  if file_url == url then FetchOutcome.invalidURL
  else
    match dictGet vfs file_url with
    | none => FetchOutcome.notFound
    | some the_file => FetchOutcome.ok the_file.data file_url

/-- Source `_HtmlCompiler.find_stylesheets`: all CSS-typed file versions. -/
def find_stylesheets (files : List FileVersion) : List FileVersion :=
  files.filter (fun fv => fv.file.type == FileType.CSS)

end HtmlCompiler

/-- Modelled from the spec: `NameFactory` (from `emprinten/files.py`, which
is not part of the sources) evaluates an optional user-supplied naming
template against a row binding and falls back to the supplied fallback name
when the naming template is absent or yields no usable name. The compiled
naming template is abstracted as a function from the row binding to the
optional name it yields. -/
def NameFactory.make (tpl : Option (Option DataRow → Option String))
    (row : Option DataRow) (fallback : String) : String :=
  match tpl with
  | none => fallback
  | some f =>
    match f row with
    | none => fallback
    | some name => name

/-! ## The template compiler and the HTML-to-PDF compiler

Jinja rendering is abstracted by function parameters:
* `tplRender row` is `tpl.render(row=row, **lookups)` for the Main
  template (the lookup tables of `find_lookup_tables` are closed over);
* `titleRender row` is `title_pattern.render(row=row)` for the compiled
  title template;
both may raise (`Except.error`), modelling template runtime errors. -/

/-- Source type `FileWithData = tuple[str, dict[str, str] | None]`. -/
abbrev FileWithData := String × Option DataRow

/-- Files written to disk, as (path, content) pairs in write order. -/
abbrev Written := List (String × String)

/-- The `split_output=True` loop of `_TemplateCompiler.compile`, carrying
the 1-based `enumerate` counter: per row, copy the row, render the title,
record `(src_name, row_copy)`, and write header + body + footer to the
numbered file. -/
def compileSplitE (tplRender : DataRow → Except String String)
    (titleRender : Option DataRow → Except String String) (src_dir : String) :
    Nat → DataSet → Except String (List FileWithData × Written)
  | _, [] => Except.ok ([], [])
  | idx, row :: rest => do
    let row_copy := row
    let title ← titleRender (some row_copy)
    let src_name := path_join src_dir (pad3 idx ++ ".html")
    let body ← tplRender row_copy
    let (srcs, files) ← compileSplitE tplRender titleRender src_dir (idx + 1) rest
    Except.ok ((src_name, some row_copy) :: srcs,
      (src_name, html_header title ++ body ++ html_footer) :: files)

/-- The body loop of the merged branch: `tpl.render(row=dict(row))` for
each row of the dataset in order. -/
def renderAll (tplRender : DataRow → Except String String) :
    DataSet → Except String (List String)
  | [] => Except.ok []
  | row :: rest => do
    let body ← tplRender row
    let bodies ← renderAll tplRender rest
    Except.ok (body :: bodies)

/-- The `split_output=False` branch of `_TemplateCompiler.compile`: one
`master.html` concatenating the Main template's rendering of every row;
the associated row is the single row when the dataset is a singleton and
none otherwise; the title is rendered only when the dataset is nonempty. -/
def compileMergedE (tplRender : DataRow → Except String String)
    (titleRender : Option DataRow → Except String String) (src_dir : String)
    (data : DataSet) : Except String (List FileWithData × Written) := do
  let row_copy : Option DataRow := match data with | [row0] => some row0 | _ => none
  let title ← if data.isEmpty then Except.ok "" else titleRender row_copy
  let src_name := path_join src_dir "master.html"
  let bodies ← renderAll tplRender data
  Except.ok ([(src_name, row_copy)],
    [(src_name, html_header title ++ String.join bodies ++ html_footer)])

/-- Source `_TemplateCompiler.compile`: resolve the main template through the
loader (raising `TemplateNotFound` when it is unresolvable), then compile
per row or merged. -/
def TemplateCompiler.compileE (vfs : Vfs)
    (tplRender : DataRow → Except String String)
    (titleRender : Option DataRow → Except String String)
    (main_file_name src_dir : String) (data : DataSet)
    (split_output : Bool) : Except String (List FileWithData × Written) := do
  let _ ← TemplateCompiler.get_template vfs main_file_name
  if split_output then compileSplitE tplRender titleRender src_dir 1 data
  else compileMergedE tplRender titleRender src_dir data

/-- Source `_HtmlCompiler.compile`: one PDF per source, in order, keeping each
source's associated row; the PDF's name is the source's base name with the
extension replaced by `.pdf`. `pdfRender` abstracts weasyprint (CSS of the
VFS applied), and may raise. -/
def HtmlCompiler.compileE (pdfRender : String → Except String String)
    (result_dir : String) :
    List FileWithData → Except String (List FileWithData × Written)
  | [] => Except.ok ([], [])
  | (source, row) :: rest => do
    let pdf ← pdfRender source
    let dst_base := splitextRoot (basename source)
    let dst_name := path_join result_dir (dst_base ++ ".pdf")
    let (rs, fls) ← HtmlCompiler.compileE pdfRender result_dir rest
    Except.ok ((dst_name, row) :: rs, (dst_name, pdf) :: fls)

/-! ## `render_pdf` and the temporary-directory lifecycle -/

/-- The filesystem, as the list of existing paths. -/
abbrev FS := List String

/-- Whether `p` is the directory `tmp` itself or lies beneath it; the set
of paths `shutil.rmtree(tmp)` removes. -/
def underDir (tmp p : String) : Bool :=
  p == tmp || (tmp ++ "/").toList.isPrefixOf p.toList

/-- The `make_temp_dir` context manager: `tempfile.mkdtemp` creates `tmp`,
the body runs (its result may be an exception), and the `finally` block
removes the tree rooted at `tmp` unless `keep` is set. -/
def make_temp_dir {α : Type} (keep : Bool) (tmp : String) (fs : FS)
    (body : FS → Except String α × FS) : Except String α × FS :=
  let fs1 := fs ++ [tmp]
  let (r, fs2) := body fs1
  (r, if keep then fs2 else fs2.filter (fun p => ! underDir tmp p))

/-- The HTTP responses `render_pdf` can return: `HttpResponse(body, status)`,
a body-less `HttpResponse(status=...)`, a streamed single PDF
(`FileResponse`, default status 200, with download filename), or a streamed
zip archive whose `entries` are the `(arcname, written path)` pairs in
write order. -/
inductive HttpResp where
  | text (status : Nat) (body : String)
  | empty (status : Nat)
  | pdfStream (status : Nat) (contentType : String) (filename : String) (path : String)
  | zipStream (status : Nat) (contentType : String)
      (entries : List (String × String)) (path : String)
  deriving DecidableEq, Repr

/-- Source `name_tpl = env.from_string(filename_pattern) if filename_pattern else None`:
the compiled naming template, or none when the pattern is absent or empty
(the empty string is falsy in Python). `nameRender p` abstracts
`env.from_string(p)` composed with rendering against the row binding. -/
def makeNameTpl (nameRender : String → Option DataRow → Option String)
    (filename_pattern : Option String) : Option (Option DataRow → Option String) :=
  match filename_pattern with
  | none => none
  | some p => if p = "" then none else some (nameRender p)

/-- The `z.write(pdf_name, arcname=arc_name)` loop over the compiled
results: each entry's name is the naming template evaluated against
`{row: row}` with the result's own base filename as fallback;
`archiveWrite` abstracts the write, which may raise. Returns the
`(arcname, written path)` entries in write order. -/
def writeZipEntries (archiveWrite : String → String → Except String Unit)
    (name_tpl : Option (Option DataRow → Option String)) :
    List FileWithData → Except String (List (String × String))
  | [] => Except.ok []
  | (pdf_name, row) :: rest => do
    let arc_name := NameFactory.make name_tpl row (basename pdf_name)
    let _ ← archiveWrite pdf_name arc_name
    let entries ← writeZipEntries archiveWrite name_tpl rest
    Except.ok ((arc_name, pdf_name) :: entries)

/-- The response-packaging tail of `render_pdf` (source lines 127-154):
either zip all results and stream the archive, or dispatch on the number
of results (more than one → 401; one → stream it as a PDF with the
computed filename; zero → 201). `fs4` is the filesystem at this point. -/
def packageResponse (nameRender : String → Option DataRow → Option String)
    (filename_pattern : Option String)
    (archiveWrite : String → String → Except String Unit) (tmp : String)
    (results : List FileWithData) (return_archive : Bool) (fs4 : FS) :
    Except String HttpResp × FS :=
  let name_tpl := makeNameTpl nameRender filename_pattern
  if return_archive then
    let z_name := path_join tmp "result.zip"
    match writeZipEntries archiveWrite name_tpl results with
    | Except.error e => (Except.error e, fs4 ++ [z_name])
    | Except.ok entries =>
      (Except.ok (HttpResp.zipStream 200 "application/zip" entries z_name),
        fs4 ++ [z_name])
  else if results.length > 1 then
    (Except.ok (HttpResp.empty 401), fs4)
  else
    match results with
    | [] => (Except.ok (HttpResp.empty 201), fs4)
    | (pdf_name, row) :: _ =>
      (Except.ok (HttpResp.pdfStream 200 "application/pdf"
        (NameFactory.make name_tpl row "result.pdf") pdf_name), fs4)

/-- Source `render_pdf`. The jinja and weasyprint effects enter as parameters:
`nameRender p` is the compiled `filename_pattern` template `p` (consumed by
the spec-modelled `NameFactory.make`), and `archiveWrite pdf arc` is
`zipfile.ZipFile.write(pdf, arcname=arc)`, which may raise. The filesystem
`fs` is threaded; `tmp` is the fresh name `tempfile.mkdtemp` picks. -/
def render_pdf
    (tplRender : DataRow → Except String String)
    (titleRender : Option DataRow → Except String String)
    (pdfRender : String → Except String String)
    (nameRender : String → Option DataRow → Option String)
    (archiveWrite : String → String → Except String Unit)
    (files : List FileVersion)
    (filename_pattern : Option String)
    (data : DataSet)
    (return_archive : Bool)
    (tmp : String) (fs : FS) : Except String HttpResp × FS :=
  match find_main files with
  | none => (Except.ok (HttpResp.text 404 "Main file not found"), fs)
  | some main =>
    let vfs := files_to_vfs files
    make_temp_dir false tmp fs (fun fs1 =>
      let src_dir := path_join tmp "src"
      let result_dir := path_join tmp "result"
      let fs2 := fs1 ++ [src_dir, result_dir]
      match TemplateCompiler.compileE vfs tplRender titleRender
          main.file.file_name src_dir data return_archive with
      | Except.error e => (Except.error e, fs2)
      | Except.ok (sources, htmlFiles) =>
        let fs3 := fs2 ++ htmlFiles.map (fun f => f.1)
        match HtmlCompiler.compileE pdfRender result_dir sources with
        | Except.error e => (Except.error e, fs3)
        | Except.ok (results, pdfFiles) =>
          let fs4 := fs3 ++ pdfFiles.map (fun f => f.1)
          packageResponse nameRender filename_pattern archiveWrite tmp
            results return_archive fs4)

/-! ## Row-dict aliasing model of `_TemplateCompiler.compile`

`compileRefs` is the same control flow as `compileSplitE`/`compileMergedE`
with the identity of the Python row dicts made explicit: the heap holds
the dict objects, the caller's dataset is a list of references into it,
and `dict(row)` allocates a fresh reference holding a copy of the
top-level entries. A renderer may mutate (the top level of) the one dict
it is handed, which is what `tplEff`/`titleEff` returning an updated row
models. The recorded `(sourcePath, row)` pairs hold references, so a
mutation performed by the body render after the pair is recorded is
visible through the pair — exactly as in the source, where
`sources.append((src_name, row_copy))` precedes `tpl.render(row=row_copy)`. -/

/-- A reference to a row dict. -/
abbrev Ref := Nat

/-- The store of row-dict objects; a `Ref` indexes into it. -/
abbrev Heap := List DataRow

def heapGet (h : Heap) (r : Ref) : DataRow := h.getD r []

def heapSet (h : Heap) (r : Ref) (v : DataRow) : Heap := h.set r v

/-- Python `dict(row)`: allocate a fresh dict holding a copy of the top-level
entries. -/
def heapAlloc (h : Heap) (v : DataRow) : Heap × Ref := (h ++ [v], h.length)

/-- The `split_output=True` loop with aliasing explicit: per row, copy the
row into a fresh dict, render the title against the copy (possibly
mutating it), record the pair holding the copy's reference, then render
the body against the copy (possibly mutating it). -/
def compileRefsSplit (tplEff : DataRow → String × DataRow)
    (titleEff : Option DataRow → String × Option DataRow) (src_dir : String) :
    Nat → List Ref → Heap → List (String × Option Ref) × Heap
  | _, [], h => ([], h)
  | idx, r :: rest, h =>
    let a := heapAlloc h (heapGet h r)
    let h1 := a.1
    let c := a.2
    let t := titleEff (some (heapGet h1 c))
    let h2 := heapSet h1 c (match t.2 with | some v => v | none => heapGet h1 c)
    let src_name := path_join src_dir (pad3 idx ++ ".html")
    let b := tplEff (heapGet h2 c)
    let h3 := heapSet h2 c b.2
    let rec_result := compileRefsSplit tplEff titleEff src_dir (idx + 1) rest h3
    ((src_name, some c) :: rec_result.1, rec_result.2)

/-- The `split_output=False` branch with aliasing explicit: the recorded
copy exists only for a singleton dataset; the body loop renders each row
against a fresh, unrecorded copy. -/
def compileRefsMerged (tplEff : DataRow → String × DataRow)
    (titleEff : Option DataRow → String × Option DataRow) (src_dir : String)
    (dataRefs : List Ref) (h : Heap) : List (String × Option Ref) × Heap :=
  let alloc1 : Heap × Option Ref :=
    match dataRefs with
    | [r0] =>
      let a := heapAlloc h (heapGet h r0)
      (a.1, some a.2)
    | _ => (h, none)
  let h1 := alloc1.1
  let cOpt := alloc1.2
  let h2 :=
    match cOpt with
    | some c =>
      let t := titleEff (some (heapGet h1 c))
      heapSet h1 c (match t.2 with | some v => v | none => heapGet h1 c)
    | none => h1
  let src_name := path_join src_dir "master.html"
  let h3 := dataRefs.foldl (fun hh r =>
    let a := heapAlloc hh (heapGet hh r)
    let b := tplEff (heapGet a.1 a.2)
    heapSet a.1 a.2 b.2) h2
  ([(src_name, cOpt)], h3)

/-- Source `_TemplateCompiler.compile` with row-dict aliasing explicit. -/
def compileRefs (tplEff : DataRow → String × DataRow)
    (titleEff : Option DataRow → String × Option DataRow) (src_dir : String)
    (dataRefs : List Ref) (split_output : Bool) (h : Heap) :
    List (String × Option Ref) × Heap :=
  if split_output then compileRefsSplit tplEff titleEff src_dir 1 dataRefs h
  else compileRefsMerged tplEff titleEff src_dir dataRefs h

/-- Heap `h'` extends `h`: it is at least as long and agrees on every position
of `h`. All heap transitions of `compileRefs` have this shape. -/
def HeapExt (h h' : Heap) : Prop :=
  h.length ≤ h'.length ∧ ∀ i, i < h.length → heapGet h' i = heapGet h i

/-! ## Spec-side definitions for the merged (`splitOutput=false`) contract,
written from the specification's words, to be compared with the code. -/

/-- Spec: the associated row of the merged document is the single row when
the dataset contains exactly one row, and none otherwise. -/
def specMergedRow (rows : DataSet) : Option DataRow :=
  if h : rows.length = 1 then some (rows.get ⟨0, by omega⟩) else none

/-- Spec: the merged title is computed (from the title template, given
`specMergedRow`) only when the dataset is nonempty, and is the empty
string when the dataset is empty. -/
def specMergedTitle (titleVal : Option DataRow → String) (rows : DataSet) : String :=
  if rows.length = 0 then "" else titleVal (specMergedRow rows)

/-! ## Dict lemmas: a comprehension maps a key to the value produced by the
LAST element of the iteration that yields that key. -/

theorem dictGet_upsert {α : Type} (m : Dict α) (k k' : String) (v : α) :
    dictGet (dictUpsert m k v) k' =
      if k' = k then some v else dictGet m k' := by
  induction m with
  | nil =>
    by_cases h : k' = k
    · simp [dictUpsert, dictGet, List.find?, h]
    · simp [dictUpsert, dictGet, List.find?, h,
        show (k == k') = false by simpa using fun e => h e.symm]
  | cons p rest ih =>
    by_cases hp : p.1 = k
    · simp only [dictUpsert, show (p.1 == k) = true by simpa using hp, if_true]
      by_cases h : k' = k
      · simp [dictGet, List.find?, h]
      · simp [dictGet, List.find?, h, hp,
          show (k == k') = false by simpa using fun e => h e.symm,
          show (p.1 == k') = false by simpa using fun e => h (hp ▸ e).symm]
    · simp only [dictUpsert, show (p.1 == k) = false by simpa using hp,
        Bool.false_eq_true, if_false]
      by_cases hk' : p.1 = k'
      · have h : ¬ (k' = k) := fun e => hp (hk'.trans e)
        simp [dictGet, List.find?, hk', h]
      · simp only [dictGet, List.find?_cons,
          show (p.1 == k') = false by simpa using hk']
        exact ih

theorem dictGet_fold {α β : Type} (key : β → String) (val : β → α)
    (k : String) (xs : List β) :
    ∀ m : Dict α,
      dictGet (xs.foldl (fun m x => dictUpsert m (key x) (val x)) m) k =
        match xs.reverse.find? (fun x => key x == k) with
        | some x => some (val x)
        | none => dictGet m k := by
  induction xs with
  | nil => intro m; simp
  | cons x xs ih =>
    intro m
    simp only [List.foldl_cons, List.reverse_cons]
    rw [ih]
    cases hfind : xs.reverse.find? (fun x => key x == k) with
    | some y => simp [List.find?_append, hfind]
    | none =>
      by_cases h : key x = k
      · simp [List.find?_append, hfind, List.find?, h, dictGet_upsert]
      · simp only [List.find?_append, hfind, List.find?,
          show (key x == k) = false by simpa using h, dictGet_upsert]
        rw [if_neg (fun e : k = key x => h e.symm)]
        simp

theorem dictGet_comprehension {α β : Type} (key : β → String) (val : β → α)
    (k : String) (xs : List β) :
    dictGet (dictOfComprehension key val xs) k =
      (xs.reverse.find? (fun x => key x == k)).map val := by
  rw [dictOfComprehension, dictGet_fold]
  cases xs.reverse.find? (fun x => key x == k) <;> simp [dictGet]

/-! ## String-helper lemmas -/

theorem mkToList (s : String) : String.mk s.toList = s := by
  cases s
  rfl

theorem toListAppend (a b : String) : (a ++ b).toList = a.toList ++ b.toList := rfl

theorem takeWhileAppendAll {p : Char → Bool} :
    ∀ l₁ l₂ : List Char, (∀ c ∈ l₁, p c = true) →
      (l₁ ++ l₂).takeWhile p = l₁ ++ l₂.takeWhile p := by
  intro l₁
  induction l₁ with
  | nil => intro l₂ _; simp
  | cons a l ih =>
    intro l₂ h
    have ha : p a = true := h a (List.mem_cons_self a l)
    simp only [List.cons_append, List.takeWhile_cons, ha, if_true]
    rw [ih l₂ (fun c hc => h c (List.mem_cons_of_mem a hc))]

theorem isPrefixOfSelfAppend (l t : List Char) : l.isPrefixOf (l ++ t) = true := by
  simp [List.isPrefixOf_iff_prefix]

theorem basename_join (d s : String) (h : ∀ c ∈ s.toList, (c != '/') = true) :
    basename (path_join d s) = s := by
  unfold basename path_join
  have h1 : (d ++ "/" ++ s).toList = (d.toList ++ ['/']) ++ s.toList := rfl
  rw [h1, List.reverse_append,
    takeWhileAppendAll _ _ (fun c hc => h c (List.mem_reverse.mp hc))]
  have h2 : ((d.toList ++ ['/']).reverse).takeWhile (fun c => c != '/') = [] := by
    simp [List.reverse_append, List.takeWhile_cons]
  rw [h2, List.append_nil, List.reverse_reverse, mkToList]

theorem natDecimalCore_chars (P : Char → Prop)
    (hd : ∀ k : Nat, k < 10 → P (Char.ofNat (48 + k))) :
    ∀ (fuel n : Nat) (acc : List Char), (∀ c ∈ acc, P c) →
      ∀ c ∈ natDecimalCore fuel n acc, P c := by
  intro fuel
  induction fuel with
  | zero => intro n acc hacc c hc; exact hacc c hc
  | succ fuel ih =>
    intro n acc hacc c hc
    rw [natDecimalCore] at hc
    by_cases h10 : n < 10
    · rw [if_pos h10] at hc
      rcases List.mem_cons.mp hc with h | h
      · exact h ▸ hd (n % 10) (Nat.mod_lt n (by omega))
      · exact hacc c h
    · rw [if_neg h10] at hc
      exact ih (n / 10) (Char.ofNat (48 + n % 10) :: acc)
        (fun c' hc' => by
          rcases List.mem_cons.mp hc' with h | h
          · exact h ▸ hd (n % 10) (Nat.mod_lt n (by omega))
          · exact hacc c' h)
        c hc

theorem natDecimalCore_length :
    ∀ (fuel n : Nat) (acc : List Char),
      acc.length ≤ (natDecimalCore fuel n acc).length
      ∧ (0 < fuel → acc.length < (natDecimalCore fuel n acc).length) := by
  intro fuel
  induction fuel with
  | zero => intro n acc; exact ⟨le_refl _, fun h => absurd h (by omega)⟩
  | succ fuel ih =>
    intro n acc
    rw [natDecimalCore]
    by_cases h10 : n < 10
    · rw [if_pos h10]
      exact ⟨by simp, fun _ => by simp⟩
    · rw [if_neg h10]
      have h := ih (n / 10) (Char.ofNat (48 + n % 10) :: acc)
      have hlen : acc.length < (Char.ofNat (48 + n % 10) :: acc).length := by simp
      exact ⟨le_of_lt (lt_of_lt_of_le hlen h.1),
        fun _ => lt_of_lt_of_le hlen h.1⟩

theorem pad3_chars (n : Nat) :
    ∀ c ∈ (pad3 n).toList, (c != '/') = true ∧ (c != '.') = true := by
  intro c hc
  have h1 : (pad3 n).toList
      = List.replicate (3 - (natDecimal n).length) '0'
        ++ natDecimalCore (n + 1) n [] := rfl
  rw [h1] at hc
  rcases List.mem_append.mp hc with h | h
  · rw [List.eq_of_mem_replicate h]
    exact ⟨by decide, by decide⟩
  · exact natDecimalCore_chars
      (fun c => (c != '/') = true ∧ (c != '.') = true)
      (fun k hk => by
        interval_cases k <;> exact ⟨by decide, by decide⟩)
      (n + 1) n [] (by simp) c h

theorem pad3_ne_nil (n : Nat) : (pad3 n).toList ≠ [] := by
  have h1 : (pad3 n).toList
      = List.replicate (3 - (natDecimal n).length) '0'
        ++ natDecimalCore (n + 1) n [] := rfl
  rw [h1]
  intro h
  have h2 := (natDecimalCore_length (n + 1) n []).2 (by omega)
  rw [(List.append_eq_nil.mp h).2] at h2
  simp at h2

theorem splitextRoot_append_html (s : String) (hne : s.toList ≠ [])
    (hch : ∀ c ∈ s.toList, (c != '.') = true) :
    splitextRoot (s ++ ".html") = s := by
  have hrev : (s ++ ".html").toList.reverse
      = 'l' :: 'm' :: 't' :: 'h' :: '.' :: s.toList.reverse := by
    rw [toListAppend, List.reverse_append]
    rfl
  unfold splitextRoot
  rw [hrev]
  have hext : List.takeWhile (fun c => c != '.')
      ('l' :: 'm' :: 't' :: 'h' :: '.' :: s.toList.reverse)
      = ['l', 'm', 't', 'h'] := by
    simp [List.takeWhile_cons]
  simp only [hext]
  have hlen : (['l', 'm', 't', 'h'] : List Char).length
      ≠ ('l' :: 'm' :: 't' :: 'h' :: '.' :: s.toList.reverse).length := by
    simp
  rw [if_neg hlen]
  have hdrop : ('l' :: 'm' :: 't' :: 'h' :: '.' :: s.toList.reverse).drop
      ((['l', 'm', 't', 'h'] : List Char).length + 1) = s.toList.reverse := rfl
  rw [hdrop]
  obtain ⟨c₀, hc₀⟩ := List.exists_mem_of_ne_nil _ hne
  have hall : s.toList.reverse.all (fun c => c == '.') = false := by
    rw [List.all_eq_false]
    exact ⟨c₀, List.mem_reverse.mpr hc₀, by simpa using hch c₀ hc₀⟩
  rw [hall]
  simp [mkToList]

theorem pdfBaseOfHtml (d s : String) (hne : s.toList ≠ [])
    (hch : ∀ c ∈ s.toList, (c != '/') = true ∧ (c != '.') = true) :
    splitextRoot (basename (path_join d (s ++ ".html"))) = s := by
  have hb : basename (path_join d (s ++ ".html")) = s ++ ".html" := by
    apply basename_join
    intro c hc
    rw [toListAppend] at hc
    rcases List.mem_append.mp hc with h | h
    · exact (hch c h).1
    · have : ∀ c ∈ (".html" : String).toList, (c != '/') = true := by decide
      exact this c h
  rw [hb]
  exact splitextRoot_append_html s hne (fun c hc => (hch c hc).2)

/-! ## Closed forms and shape lemmas for the compile stages -/

theorem bind_ok_iff {α β : Type} (x : Except String α) (k : α → Except String β)
    (b : β) : (x >>= k) = Except.ok b ↔ ∃ a, x = Except.ok a ∧ k a = Except.ok b := by
  cases x <;> simp [bind, Except.bind]

theorem renderAll_ok (f : DataRow → String) :
    ∀ rows : DataSet,
      renderAll (fun r => Except.ok (f r)) rows = Except.ok (rows.map f) := by
  intro rows
  induction rows with
  | nil => rfl
  | cons row rest ih => rw [renderAll, ih]; rfl

theorem compileSplitE_eq (f : DataRow → String) (g : Option DataRow → String)
    (d : String) : ∀ (idx : Nat) (rows : DataSet),
    compileSplitE (fun r => Except.ok (f r)) (fun r => Except.ok (g r)) d idx rows
      = Except.ok
        (List.ofFn (fun i : Fin rows.length =>
          (path_join d (pad3 (idx + i.1) ++ ".html"), some (rows.get i))),
         List.ofFn (fun i : Fin rows.length =>
          (path_join d (pad3 (idx + i.1) ++ ".html"),
           html_header (g (some (rows.get i))) ++ f (rows.get i) ++ html_footer))) := by
  intro idx rows
  induction rows generalizing idx with
  | nil => rfl
  | cons row rest ih =>
    rw [compileSplitE, ih (idx + 1)]
    have harith : ∀ i : Nat, idx + 1 + i = idx + (i + 1) := by omega
    simp only [bind, Except.bind, Except.ok.injEq, List.length_cons,
      List.ofFn_succ, Fin.val_zero, Fin.val_succ, Nat.add_zero,
      List.get_cons_zero, List.get_cons_succ, Prod.mk.injEq, harith]
    exact ⟨rfl, rfl⟩

theorem compileMergedE_eq (f : DataRow → String) (g : Option DataRow → String)
    (d : String) (rows : DataSet) :
    compileMergedE (fun r => Except.ok (f r)) (fun r => Except.ok (g r)) d rows
      = Except.ok
        ([(path_join d "master.html", specMergedRow rows)],
         [(path_join d "master.html",
           html_header (specMergedTitle g rows) ++ String.join (rows.map f)
             ++ html_footer)]) := by
  cases rows with
  | nil => rfl
  | cons r rest =>
    cases rest with
    | nil =>
      unfold compileMergedE
      rw [renderAll_ok]
      rfl
    | cons r2 rest2 =>
      unfold compileMergedE
      rw [renderAll_ok]
      rfl

theorem compileHtmlE_ok_shape (pdfRender : String → Except String String)
    (rd : String) : ∀ (sources : List FileWithData) S F,
    HtmlCompiler.compileE pdfRender rd sources = Except.ok (S, F) →
      S = sources.map (fun sr =>
        (path_join rd (splitextRoot (basename sr.1) ++ ".pdf"), sr.2))
      ∧ F.map (fun pc => pc.1) = sources.map (fun sr =>
        path_join rd (splitextRoot (basename sr.1) ++ ".pdf")) := by
  intro sources
  induction sources with
  | nil =>
    intro S F h
    rw [HtmlCompiler.compileE] at h
    cases h
    exact ⟨rfl, rfl⟩
  | cons sr rest ih =>
    intro S F h
    obtain ⟨source, row⟩ := sr
    rw [HtmlCompiler.compileE] at h
    cases hp : pdfRender source with
    | error e => rw [hp] at h; exact Except.noConfusion h
    | ok pdf =>
      rw [hp] at h
      cases hr : HtmlCompiler.compileE pdfRender rd rest with
      | error e => rw [hr] at h; exact Except.noConfusion h
      | ok pr =>
        obtain ⟨Srest, Frest⟩ := pr
        rw [hr] at h
        obtain ⟨h1, h2⟩ := ih Srest Frest hr
        cases h
        simp [h1, h2]

theorem compileHtmlE_eq (pdf : String → String) (rd : String)
    (sources : List FileWithData) :
    HtmlCompiler.compileE (fun s => Except.ok (pdf s)) rd sources
      = Except.ok
        (sources.map (fun sr =>
          (path_join rd (splitextRoot (basename sr.1) ++ ".pdf"), sr.2)),
         sources.map (fun sr =>
          (path_join rd (splitextRoot (basename sr.1) ++ ".pdf"), pdf sr.1))) := by
  induction sources with
  | nil => rfl
  | cons sr rest ih =>
    obtain ⟨source, row⟩ := sr
    rw [HtmlCompiler.compileE, ih]
    rfl

theorem compileSplitE_ok_written (t : DataRow → Except String String)
    (g : Option DataRow → Except String String) (d : String) :
    ∀ (idx : Nat) (rows : DataSet) S F,
    compileSplitE t g d idx rows = Except.ok (S, F) →
      ∀ pc ∈ F, ∃ name, pc.1 = path_join d name := by
  intro idx rows
  induction rows generalizing idx with
  | nil =>
    intro S F h pc hpc
    rw [compileSplitE] at h
    cases h
    simp at hpc
  | cons row rest ih =>
    intro S F h pc hpc
    rw [compileSplitE] at h
    cases ht : g (some row) with
    | error e => rw [ht] at h; exact Except.noConfusion h
    | ok title =>
      rw [ht] at h
      cases hb : t row with
      | error e => rw [hb] at h; exact Except.noConfusion h
      | ok body =>
        rw [hb] at h
        cases hr : compileSplitE t g d (idx + 1) rest with
        | error e => rw [hr] at h; exact Except.noConfusion h
        | ok pr =>
          obtain ⟨Srest, Frest⟩ := pr
          rw [hr] at h
          cases h
          rcases List.mem_cons.mp hpc with hh | hh
          · exact ⟨pad3 idx ++ ".html", by rw [hh]⟩
          · exact ih (idx + 1) Srest Frest hr pc hh

theorem compileMergedE_ok_shape (t : DataRow → Except String String)
    (g : Option DataRow → Except String String) (d : String)
    (rows : DataSet) (S : List FileWithData) (F : Written)
    (hcomp : compileMergedE t g d rows = Except.ok (S, F)) :
    ∃ content rowOpt, S = [(path_join d "master.html", rowOpt)]
      ∧ F = [(path_join d "master.html", content)] := by
  unfold compileMergedE at hcomp
  split at hcomp
  · rename_i row0
    dsimp only [] at hcomp
    cases hg : g (some row0) with
    | error e => rw [hg] at hcomp; exact Except.noConfusion hcomp
    | ok title =>
      rw [hg] at hcomp
      cases hr : renderAll t [row0] with
      | error e => rw [hr] at hcomp; exact Except.noConfusion hcomp
      | ok bodies =>
        rw [hr] at hcomp
        cases hcomp
        exact ⟨_, _, rfl, rfl⟩
  · split at hcomp
    · cases hr : renderAll t rows with
      | error e => rw [hr] at hcomp; exact Except.noConfusion hcomp
      | ok bodies =>
        rw [hr] at hcomp
        cases hcomp
        exact ⟨_, _, rfl, rfl⟩
    · dsimp only [] at hcomp
      cases hg : g none with
      | error e => rw [hg] at hcomp; exact Except.noConfusion hcomp
      | ok title =>
        rw [hg] at hcomp
        cases hr : renderAll t rows with
        | error e => rw [hr] at hcomp; exact Except.noConfusion hcomp
        | ok bodies =>
          rw [hr] at hcomp
          cases hcomp
          exact ⟨_, _, rfl, rfl⟩

theorem compileE_ok_shapes (vfs : Vfs) (t : DataRow → Except String String)
    (g : Option DataRow → Except String String) (mfn d : String)
    (rows : DataSet) (split : Bool) (S : List FileWithData) (F : Written)
    (h : TemplateCompiler.compileE vfs t g mfn d rows split = Except.ok (S, F)) :
    (split = false → ∃ rowOpt, S = [(path_join d "master.html", rowOpt)])
      ∧ ∀ pc ∈ F, ∃ name, pc.1 = path_join d name := by
  rw [TemplateCompiler.compileE] at h
  simp only [bind_ok_iff] at h
  obtain ⟨tp, -, h⟩ := h
  cases split with
  | true =>
    refine ⟨fun hc => Bool.noConfusion hc, ?_⟩
    exact fun pc hpc => compileSplitE_ok_written t g d 1 rows S F h pc hpc
  | false =>
    obtain ⟨content, rowOpt, hS, hF⟩ := compileMergedE_ok_shape t g d rows S F h
    refine ⟨fun _ => ⟨rowOpt, hS⟩, ?_⟩
    intro pc hpc
    rw [hF] at hpc
    exact ⟨"master.html", by rw [List.mem_singleton.mp hpc]⟩

/-! ## Temporary-directory lemmas -/

theorem underDir_self (tmp : String) : underDir tmp tmp = true := by
  simp [underDir]

theorem underDir_append (tmp r : String) :
    underDir tmp ((tmp ++ "/") ++ r) = true := by
  unfold underDir
  have h : ((tmp ++ "/") ++ r).toList = (tmp ++ "/").toList ++ r.toList := rfl
  rw [h, isPrefixOfSelfAppend]
  simp

theorem underDir_join (tmp x : String) :
    underDir tmp (path_join tmp x) = true :=
  underDir_append tmp x

theorem underDir_join2 (tmp a b : String) :
    underDir tmp (path_join (path_join tmp a) b) = true := by
  have h : path_join (path_join tmp a) b = (tmp ++ "/") ++ (a ++ "/" ++ b) := by
    simp [path_join, String.append_assoc]
  rw [h]
  exact underDir_append tmp (a ++ "/" ++ b)

theorem filterUnder (tmp : String) (fs adds : FS)
    (hfs : ∀ p ∈ fs, underDir tmp p = false)
    (hadds : ∀ p ∈ adds, underDir tmp p = true) :
    (fs ++ adds).filter (fun p => ! underDir tmp p) = fs := by
  rw [List.filter_append]
  have h1 : fs.filter (fun p => ! underDir tmp p) = fs :=
    List.filter_eq_self.mpr (fun a ha => by simp [hfs a ha])
  have h3 : adds.filter (fun p => ! underDir tmp p) = [] :=
    List.filter_eq_nil_iff.mpr (fun a ha => by simp [hadds a ha])
  rw [h1, h3, List.append_nil]

theorem packageResponse_snd (nameR : String → Option DataRow → Option String)
    (fpat : Option String) (aw : String → String → Except String Unit)
    (tmp : String) (R : List FileWithData) (ra : Bool) (fs4 : FS) :
    (packageResponse nameR fpat aw tmp R ra fs4).2 = fs4
    ∨ (packageResponse nameR fpat aw tmp R ra fs4).2
        = fs4 ++ [path_join tmp "result.zip"] := by
  unfold packageResponse
  cases ra with
  | true =>
    dsimp only []
    cases hw : writeZipEntries aw (makeNameTpl nameR fpat) R with
    | error e => right; rfl
    | ok entries => right; rfl
  | false =>
    dsimp only []
    by_cases hlen : R.length > 1
    · left; rw [if_pos hlen]; rfl
    · rw [if_neg hlen]
      cases R with
      | nil => left; rfl
      | cons pr rest =>
        obtain ⟨q, r⟩ := pr
        left; rfl

/-! ## `render_pdf` unfolding lemmas -/

theorem writeZipEntries_ok (name_tpl : Option (Option DataRow → Option String))
    (aw : String → String → Except String Unit)
    (haw : ∀ p a, aw p a = Except.ok ()) :
    ∀ results : List FileWithData,
      writeZipEntries aw name_tpl results
        = Except.ok (results.map (fun pr =>
            (NameFactory.make name_tpl pr.2 (basename pr.1), pr.1))) := by
  intro results
  induction results with
  | nil => rfl
  | cons pr rest ih =>
    obtain ⟨pdf_name, row⟩ := pr
    rw [writeZipEntries, haw, ih]
    rfl

theorem render_pdf_none (t : DataRow → Except String String)
    (g : Option DataRow → Except String String)
    (pdf : String → Except String String)
    (nameR : String → Option DataRow → Option String)
    (aw : String → String → Except String Unit)
    (files : List FileVersion) (fpat : Option String) (data : DataSet)
    (ra : Bool) (tmp : String) (fs : FS)
    (hmain : find_main files = none) :
    render_pdf t g pdf nameR aw files fpat data ra tmp fs
      = (Except.ok (HttpResp.text 404 "Main file not found"), fs) := by
  unfold render_pdf
  rw [hmain]

theorem render_pdf_ok_unfold (t : DataRow → Except String String)
    (g : Option DataRow → Except String String)
    (pdf : String → Except String String)
    (nameR : String → Option DataRow → Option String)
    (aw : String → String → Except String Unit)
    (files : List FileVersion) (fpat : Option String) (data : DataSet)
    (ra : Bool) (tmp : String) (fs : FS) (main : FileVersion)
    (S R : List FileWithData) (F PF : Written)
    (hmain : find_main files = some main)
    (hc : TemplateCompiler.compileE (files_to_vfs files) t g
      main.file.file_name (path_join tmp "src") data ra = Except.ok (S, F))
    (hh : HtmlCompiler.compileE pdf (path_join tmp "result") S
      = Except.ok (R, PF)) :
    render_pdf t g pdf nameR aw files fpat data ra tmp fs
      = (let P := packageResponse nameR fpat aw tmp R ra
          ((((fs ++ [tmp]) ++ [path_join tmp "src", path_join tmp "result"])
            ++ F.map (fun f => f.1)) ++ PF.map (fun f => f.1));
        (P.1, P.2.filter (fun p => ! underDir tmp p))) := by
  unfold render_pdf make_temp_dir
  rw [hmain]
  dsimp only []
  rw [hc]
  dsimp only []
  rw [hh]
  rfl

/-! ## The claims -/

/-- C7: `files_to_vfs` maps each file's logical name to its FileVersion and
`find_lookup_tables` maps the normalized name of each CSV-typed file to its
parsed table; in both mappings a key produced by several entries resolves
to the LAST such entry in iteration order, and no error is signaled (both
builders are total). -/
theorem claim7_vfs_and_lut_last_wins :
    ∀ (files : List FileVersion) (name : String) {Lut : Type}
      (mk : String → String) (ml : String → Lut),
      dictGet (files_to_vfs files) name
        = files.reverse.find? (fun fv => fv.file.file_name == name)
      ∧ dictGet (find_lookup_tables mk ml files) name
        = ((files.filter (fun fv => fv.file.type == FileType.CSV)).reverse.find?
            (fun fv => mk fv.file.file_name == name)).map (fun fv => ml fv.data) := by
  intro files name Lut mk ml
  constructor
  · rw [files_to_vfs, dictGet_comprehension]
    cases files.reverse.find? (fun fv => fv.file.file_name == name) <;> simp
  · rw [find_lookup_tables, dictGet_comprehension]

/-- C4: the weasyprint fetcher fails with the invalid-URL outcome whenever
the URL does not begin with the local-file pseudo-scheme; with the scheme
present, the remaining path is looked up in the VFS, yielding the
not-found outcome when absent and the matching FileVersion's content when
present. (The fetcher is a pure function of the URL and the VFS, hence
deterministic.) -/
theorem claim4_fetcher_contract :
    ∀ (vfs : Vfs) (url : String),
      (LOCAL_FILE_URI_SCHEME.toList.isPrefixOf url.toList = false →
        HtmlCompiler.do_lookup vfs url = HtmlCompiler.FetchOutcome.invalidURL)
      ∧ (∀ rest : String, url = LOCAL_FILE_URI_SCHEME ++ rest →
          (dictGet vfs rest = none →
            HtmlCompiler.do_lookup vfs url = HtmlCompiler.FetchOutcome.notFound)
          ∧ (∀ fv, dictGet vfs rest = some fv →
              HtmlCompiler.do_lookup vfs url
                = HtmlCompiler.FetchOutcome.ok fv.data rest)) := by
  intro vfs url
  constructor
  · intro h
    have hb : LOCAL_FILE_URI_SCHEME.data.isPrefixOf url.data = false := h
    have h' : ¬ LOCAL_FILE_URI_SCHEME.data <+: url.data := by
      rw [← List.isPrefixOf_iff_prefix, hb]
      simp
    simp [HtmlCompiler.do_lookup, removePre, h']
  · intro rest hurl
    subst hurl
    have hlist : (LOCAL_FILE_URI_SCHEME ++ rest).toList
        = LOCAL_FILE_URI_SCHEME.toList ++ rest.toList := rfl
    have hfu : removePre LOCAL_FILE_URI_SCHEME (LOCAL_FILE_URI_SCHEME ++ rest)
        = rest := by
      unfold removePre
      rw [if_pos (by rw [hlist]; exact isPrefixOfSelfAppend _ _)]
      rw [hlist, List.drop_left, mkToList]
    have hne : (rest == LOCAL_FILE_URI_SCHEME ++ rest) = false := by
      rw [beq_eq_false_iff_ne]
      intro heq
      have hlen := congrArg String.length heq
      rw [String.length_append] at hlen
      have h8 : LOCAL_FILE_URI_SCHEME.length = 8 := rfl
      omega
    constructor
    · intro hnone
      simp [HtmlCompiler.do_lookup, hfu, hne, hnone]
    · intro fv hsome
      simp [HtmlCompiler.do_lookup, hfu, hne, hsome]

/-- C4 witness: concrete evaluations of the three fetcher outcomes. -/
theorem claim4_fetcher_contract_witness :
    HtmlCompiler.do_lookup [] "http://x" = HtmlCompiler.FetchOutcome.invalidURL
    ∧ HtmlCompiler.do_lookup [] "file:///missing.png"
        = HtmlCompiler.FetchOutcome.notFound
    ∧ HtmlCompiler.do_lookup [("logo.png", ⟨⟨"logo.png", FileType.HTML⟩, "PNG"⟩)]
        "file:///logo.png"
        = HtmlCompiler.FetchOutcome.ok "PNG" "logo.png" := by
  refine ⟨(claim4_fetcher_contract [] "http://x").1 (by decide), ?_, ?_⟩
  · exact ((claim4_fetcher_contract [] "file:///missing.png").2
      "missing.png" (by decide)).1 (by decide)
  · exact (((claim4_fetcher_contract
      [("logo.png", ⟨⟨"logo.png", FileType.HTML⟩, "PNG"⟩)] "file:///logo.png").2
      "logo.png" (by decide)).2 ⟨⟨"logo.png", FileType.HTML⟩, "PNG"⟩ (by decide))

/-- C5: the template loader resolves a name exclusively against the VFS: a
name whose entry has type Main, HTML or CSS resolves to that entry's
content; a name absent from the VFS, or present with type CSV, makes
`get_template` fail with the template-not-found error, and that failure
aborts `compile` (it propagates out of `compileE` rather than producing
output). -/
theorem claim5_template_resolution :
    ∀ (vfs : Vfs) (name : String),
      (dictGet vfs name = none →
        TemplateCompiler.get_template vfs name
          = Except.error "template not found")
      ∧ (∀ fv, dictGet vfs name = some fv →
          ((fv.file.type = FileType.Main ∨ fv.file.type = FileType.HTML
              ∨ fv.file.type = FileType.CSS) →
            TemplateCompiler.get_template vfs name = Except.ok (fv.data, name))
          ∧ (fv.file.type = FileType.CSV →
            TemplateCompiler.get_template vfs name
              = Except.error "template not found"))
      ∧ (∀ (e : String) (t : DataRow → Except String String)
          (g : Option DataRow → Except String String) (d : String)
          (rows : DataSet) (split : Bool),
          TemplateCompiler.get_template vfs name = Except.error e →
          TemplateCompiler.compileE vfs t g name d rows split
            = Except.error e) := by
  intro vfs name
  refine ⟨?_, ?_, ?_⟩
  · intro hnone
    simp [TemplateCompiler.get_template, TemplateCompiler.do_lookup, hnone]
  · intro fv hsome
    constructor
    · intro htype
      simp [TemplateCompiler.get_template, TemplateCompiler.do_lookup, hsome, htype]
    · intro htype
      simp [TemplateCompiler.get_template, TemplateCompiler.do_lookup, hsome, htype]
  · intro e t g d rows split hge
    rw [TemplateCompiler.compileE]
    rw [hge]
    rfl

/-- C5 witness: concrete evaluations — a Main-typed entry resolves, an
absent name and a CSV-typed entry fail, and the failure aborts the
compile. -/
theorem claim5_template_resolution_witness :
    TemplateCompiler.get_template [] "missing.html"
      = Except.error "template not found"
    ∧ TemplateCompiler.get_template
        [("main.html", ⟨⟨"main.html", FileType.Main⟩, "SRC"⟩)] "main.html"
      = Except.ok ("SRC", "main.html")
    ∧ TemplateCompiler.get_template
        [("data.csv", ⟨⟨"data.csv", FileType.CSV⟩, "a;b"⟩)] "data.csv"
      = Except.error "template not found"
    ∧ TemplateCompiler.compileE [] (fun _ => Except.ok "")
        (fun _ => Except.ok "") "missing.html" "/t/src" [] false
      = Except.error "template not found" := by
  refine ⟨(claim5_template_resolution [] "missing.html").1 (by decide),
    ((claim5_template_resolution _ "main.html").2.1
      ⟨⟨"main.html", FileType.Main⟩, "SRC"⟩ (by decide)).1 (by decide),
    ((claim5_template_resolution _ "data.csv").2.1
      ⟨⟨"data.csv", FileType.CSV⟩, "a;b"⟩ (by decide)).2 (by decide),
    (claim5_template_resolution [] "missing.html").2.2 "template not found"
      (fun _ => Except.ok "") (fun _ => Except.ok "") "/t/src" [] false
      ((claim5_template_resolution [] "missing.html").1 (by decide))⟩

/-- C2: with `split_output=true` over N rows (and exception-free renderers),
the template compiler writes exactly N HTML files named with 3-digit
zero-padded 1-based sequence numbers, in row order, each source paired with
(a copy of) its originating row; the HTML-to-PDF compiler then produces
exactly N PDFs, in the same order, each named by the source's base name
with the extension replaced by `.pdf` and paired with the same row. -/
theorem claim2_split_output_pipeline :
    ∀ (f : DataRow → String) (g : Option DataRow → String)
      (pdf : String → String) (src_dir result_dir : String) (rows : DataSet),
      compileSplitE (fun r => Except.ok (f r)) (fun r => Except.ok (g r))
          src_dir 1 rows
        = Except.ok
          (List.ofFn (fun i : Fin rows.length =>
            (path_join src_dir (pad3 (1 + i.1) ++ ".html"), some (rows.get i))),
           List.ofFn (fun i : Fin rows.length =>
            (path_join src_dir (pad3 (1 + i.1) ++ ".html"),
             html_header (g (some (rows.get i))) ++ f (rows.get i)
               ++ html_footer)))
      ∧ HtmlCompiler.compileE (fun s => Except.ok (pdf s)) result_dir
          (List.ofFn (fun i : Fin rows.length =>
            (path_join src_dir (pad3 (1 + i.1) ++ ".html"), some (rows.get i))))
        = Except.ok
          (List.ofFn (fun i : Fin rows.length =>
            (path_join result_dir (pad3 (1 + i.1) ++ ".pdf"), some (rows.get i))),
           List.ofFn (fun i : Fin rows.length =>
            (path_join result_dir (pad3 (1 + i.1) ++ ".pdf"),
             pdf (path_join src_dir (pad3 (1 + i.1) ++ ".html"))))) := by
  intro f g pdf src_dir result_dir rows
  constructor
  · exact compileSplitE_eq f g src_dir 1 rows
  · rw [compileHtmlE_eq, List.map_ofFn, List.map_ofFn]
    have hbase : ∀ i : Nat,
        splitextRoot (basename (path_join src_dir (pad3 (1 + i) ++ ".html")))
          = pad3 (1 + i) := fun i =>
      pdfBaseOfHtml src_dir (pad3 (1 + i)) (pad3_ne_nil _) (pad3_chars _)
    have h1 : (fun sr : FileWithData =>
          (path_join result_dir (splitextRoot (basename sr.1) ++ ".pdf"), sr.2))
          ∘ (fun i : Fin rows.length =>
          (path_join src_dir (pad3 (1 + i.1) ++ ".html"), some (rows.get i)))
        = fun i : Fin rows.length =>
          (path_join result_dir (pad3 (1 + i.1) ++ ".pdf"), some (rows.get i)) := by
      funext i
      dsimp only [Function.comp]
      rw [hbase i.1]
    have h2 : (fun sr : FileWithData =>
          (path_join result_dir (splitextRoot (basename sr.1) ++ ".pdf"), pdf sr.1))
          ∘ (fun i : Fin rows.length =>
          (path_join src_dir (pad3 (1 + i.1) ++ ".html"), some (rows.get i)))
        = fun i : Fin rows.length =>
          (path_join result_dir (pad3 (1 + i.1) ++ ".pdf"),
           pdf (path_join src_dir (pad3 (1 + i.1) ++ ".html"))) := by
      funext i
      dsimp only [Function.comp]
      rw [hbase i.1]
    rw [h1, h2]

/-- C3: with `split_output=false` (and exception-free renderers), exactly
one HTML file (`master.html`) and one PDF (`master.pdf`) are produced for
any dataset; the file concatenates the Main template rendered for every
row in order; the associated row is `specMergedRow` (the single row for a
singleton dataset, none otherwise) and the title is `specMergedTitle`
(computed from the row binding only when the dataset is nonempty, the
empty string when it is empty). -/
theorem claim3_merged_output_pipeline :
    ∀ (f : DataRow → String) (g : Option DataRow → String)
      (pdf : String → String) (src_dir result_dir : String) (rows : DataSet),
      compileMergedE (fun r => Except.ok (f r)) (fun r => Except.ok (g r))
          src_dir rows
        = Except.ok
          ([(path_join src_dir "master.html", specMergedRow rows)],
           [(path_join src_dir "master.html",
             html_header (specMergedTitle g rows) ++ String.join (rows.map f)
               ++ html_footer)])
      ∧ HtmlCompiler.compileE (fun s => Except.ok (pdf s)) result_dir
          [(path_join src_dir "master.html", specMergedRow rows)]
        = Except.ok
          ([(path_join result_dir "master.pdf", specMergedRow rows)],
           [(path_join result_dir "master.pdf",
             pdf (path_join src_dir "master.html"))]) := by
  intro f g pdf src_dir result_dir rows
  constructor
  · exact compileMergedE_eq f g src_dir rows
  · rw [compileHtmlE_eq]
    have hb : basename (path_join src_dir "master.html") = "master.html" :=
      basename_join src_dir "master.html" (by decide)
    have hroot : splitextRoot "master.html" = "master" := by decide
    simp [hb, hroot]

/-- C1: `render_pdf` returns 404 with body "Main file not found" (and an
unchanged filesystem, so no temporary directory or other side effect) when
the file collection lacks a Main-typed entry. The non-archive dispatch of
the response packager, stated for an ARBITRARY results list so that every
branch is reachable: zero compiled results give an empty 201, exactly one
gives a 200 PDF stream with the computed filename, and more than one gives
401. The last conjunct ties `render_pdf`'s response to exactly that
dispatch applied to the actually compiled results. -/
theorem claim1_response_contract
    (t : DataRow → Except String String)
    (g : Option DataRow → Except String String)
    (pdf : String → Except String String)
    (nameR : String → Option DataRow → Option String)
    (aw : String → String → Except String Unit)
    (files : List FileVersion) (fpat : Option String) (data : DataSet)
    (tmp : String) (fs : FS) :
    (find_main files = none → ∀ ra : Bool,
      render_pdf t g pdf nameR aw files fpat data ra tmp fs
        = (Except.ok (HttpResp.text 404 "Main file not found"), fs))
    ∧ (∀ (R : List FileWithData) (fs4 : FS),
        (R = [] →
          packageResponse nameR fpat aw tmp R false fs4
            = (Except.ok (HttpResp.empty 201), fs4))
        ∧ (∀ q r, R = [(q, r)] →
            packageResponse nameR fpat aw tmp R false fs4
              = (Except.ok (HttpResp.pdfStream 200 "application/pdf"
                  (NameFactory.make (makeNameTpl nameR fpat) r "result.pdf") q),
                 fs4))
        ∧ (R.length > 1 →
            packageResponse nameR fpat aw tmp R false fs4
              = (Except.ok (HttpResp.empty 401), fs4)))
    ∧ ∀ (main : FileVersion) (S R : List FileWithData) (F PF : Written),
        find_main files = some main →
        TemplateCompiler.compileE (files_to_vfs files) t g main.file.file_name
          (path_join tmp "src") data false = Except.ok (S, F) →
        HtmlCompiler.compileE pdf (path_join tmp "result") S
          = Except.ok (R, PF) →
          (render_pdf t g pdf nameR aw files fpat data false tmp fs).1
            = (packageResponse nameR fpat aw tmp R false
                ((((fs ++ [tmp]) ++ [path_join tmp "src", path_join tmp "result"])
                  ++ F.map (fun f => f.1)) ++ PF.map (fun f => f.1))).1 := by
  refine ⟨?_, ?_, ?_⟩
  · intro hnone ra
    exact render_pdf_none t g pdf nameR aw files fpat data ra tmp fs hnone
  · intro R fs4
    refine ⟨?_, ?_, ?_⟩
    · intro hR
      subst hR
      rfl
    · intro q r hR
      subst hR
      rfl
    · intro hlen
      unfold packageResponse
      dsimp only []
      rw [if_neg (by simp), if_pos hlen]
  · intro main S R F PF hmain hc hh
    rw [render_pdf_ok_unfold t g pdf nameR aw files fpat data false tmp fs
      main S R F PF hmain hc hh]

/-- C1 witness: the 404 outcome on a Main-less input with untouched
filesystem; the packager dispatch evaluated at a zero-, a one- and a
two-element results list; and a full render whose response coincides with
the packager dispatch on its compiled results. -/
theorem claim1_response_contract_witness :
    render_pdf (fun _ => Except.ok "B") (fun _ => Except.ok "T")
        (fun _ => Except.ok "P") (fun _ _ => none)
        (fun _ _ => Except.ok ()) [] none [] false "/w" []
      = (Except.ok (HttpResp.text 404 "Main file not found"), [])
    ∧ packageResponse (fun _ _ => none) none (fun _ _ => Except.ok ())
        "/w" [] false ["/etc/keep"]
      = (Except.ok (HttpResp.empty 201), ["/etc/keep"])
    ∧ packageResponse (fun _ _ => none) none (fun _ _ => Except.ok ())
        "/w" [(path_join (path_join "/w" "result") "master.pdf", none)]
        false []
      = (Except.ok (HttpResp.pdfStream 200 "application/pdf" "result.pdf"
          (path_join (path_join "/w" "result") "master.pdf")), [])
    ∧ packageResponse (fun _ _ => none) none (fun _ _ => Except.ok ())
        "/w" [("a.pdf", none), ("b.pdf", none)] false []
      = (Except.ok (HttpResp.empty 401), [])
    ∧ (render_pdf (fun _ => Except.ok "B") (fun _ => Except.ok "T")
        (fun _ => Except.ok "P") (fun _ _ => none) (fun _ _ => Except.ok ())
        [⟨⟨"m", FileType.Main⟩, "TPL"⟩] none [] false "/w" []).1
      = Except.ok (HttpResp.pdfStream 200 "application/pdf" "result.pdf"
          (path_join (path_join "/w" "result") "master.pdf")) := by
  refine ⟨?_, ?_, ?_, ?_, ?_⟩
  · exact (claim1_response_contract (fun _ => Except.ok "B")
      (fun _ => Except.ok "T") (fun _ => Except.ok "P") (fun _ _ => none)
      (fun _ _ => Except.ok ()) [] none [] "/w" []).1 rfl false
  · exact ((claim1_response_contract (fun _ => Except.ok "B")
      (fun _ => Except.ok "T") (fun _ => Except.ok "P") (fun _ _ => none)
      (fun _ _ => Except.ok ()) [] none [] "/w" []).2.1 [] ["/etc/keep"]).1 rfl
  · exact (((claim1_response_contract (fun _ => Except.ok "B")
      (fun _ => Except.ok "T") (fun _ => Except.ok "P") (fun _ _ => none)
      (fun _ _ => Except.ok ()) [] none [] "/w" []).2.1
      [(path_join (path_join "/w" "result") "master.pdf", none)] []).2.1
      (path_join (path_join "/w" "result") "master.pdf") none rfl)
  · exact (((claim1_response_contract (fun _ => Except.ok "B")
      (fun _ => Except.ok "T") (fun _ => Except.ok "P") (fun _ _ => none)
      (fun _ _ => Except.ok ()) [] none [] "/w" []).2.1
      [("a.pdf", none), ("b.pdf", none)] []).2.2 (by decide))
  · exact ((claim1_response_contract (fun _ => Except.ok "B")
      (fun _ => Except.ok "T") (fun _ => Except.ok "P") (fun _ _ => none)
      (fun _ _ => Except.ok ()) [⟨⟨"m", FileType.Main⟩, "TPL"⟩] none [] "/w"
      []).2.2 _ _ _ _ _ rfl rfl rfl).trans rfl

/-- C9: whenever a Main file is found and both compile stages succeed in
non-archive mode (where `split_output` is set to `return_archive = false`),
the merged-mode compiler emits exactly one source, the PDF compiler one
result per source, so there is exactly one compiled result and the
response is the 200 PDF stream — the 401 and 201 branches are unreachable
in exception-free non-archive mode. -/
theorem claim9_nonarchive_single_result
    (t : DataRow → Except String String)
    (g : Option DataRow → Except String String)
    (pdf : String → Except String String)
    (nameR : String → Option DataRow → Option String)
    (aw : String → String → Except String Unit)
    (files : List FileVersion) (fpat : Option String) (data : DataSet)
    (tmp : String) (fs : FS) (main : FileVersion)
    (S R : List FileWithData) (F PF : Written)
    (hmain : find_main files = some main)
    (hc : TemplateCompiler.compileE (files_to_vfs files) t g
      main.file.file_name (path_join tmp "src") data false = Except.ok (S, F))
    (hh : HtmlCompiler.compileE pdf (path_join tmp "result") S
      = Except.ok (R, PF)) :
    R.length = 1
    ∧ ∃ fname q, (render_pdf t g pdf nameR aw files fpat data false tmp fs).1
        = Except.ok (HttpResp.pdfStream 200 "application/pdf" fname q) := by
  obtain ⟨hone, -⟩ := compileE_ok_shapes (files_to_vfs files) t g
    main.file.file_name (path_join tmp "src") data false S F hc
  obtain ⟨rowOpt, hS⟩ := hone rfl
  obtain ⟨hR, -⟩ := compileHtmlE_ok_shape pdf (path_join tmp "result") S R PF hh
  subst hS
  subst hR
  refine ⟨rfl,
    NameFactory.make (makeNameTpl nameR fpat) rowOpt "result.pdf",
    path_join (path_join tmp "result")
      (splitextRoot (basename (path_join (path_join tmp "src") "master.html"))
        ++ ".pdf"), ?_⟩
  rw [render_pdf_ok_unfold t g pdf nameR aw files fpat data false tmp fs
    main _ _ F PF hmain hc hh]
  rfl

/-- C9 witness: the concrete empty-dataset render streams one PDF. -/
theorem claim9_nonarchive_single_result_witness :
    ∃ fname q, (render_pdf (fun _ => Except.ok "B") (fun _ => Except.ok "T")
        (fun _ => Except.ok "P") (fun _ _ => none) (fun _ _ => Except.ok ())
        [⟨⟨"m", FileType.Main⟩, "TPL"⟩] none [] false "/w" []).1
      = Except.ok (HttpResp.pdfStream 200 "application/pdf" fname q) :=
  (claim9_nonarchive_single_result (fun _ => Except.ok "B")
    (fun _ => Except.ok "T") (fun _ => Except.ok "P") (fun _ _ => none)
    (fun _ _ => Except.ok ()) [⟨⟨"m", FileType.Main⟩, "TPL"⟩] none [] "/w" []
    _ _ _ _ _ rfl rfl rfl).2

/-- C8: with `return_archive=true` (and all stages succeeding), the
response is a 200 streamed `application/zip` whose entries are exactly one
per compiled result, in result order, named by the naming template
evaluated against the result's row with the result's own base filename as
fallback — and when the naming template is absent every entry name IS the
base filename. -/
theorem claim8_archive_packaging
    (t : DataRow → Except String String)
    (g : Option DataRow → Except String String)
    (pdf : String → Except String String)
    (nameR : String → Option DataRow → Option String)
    (aw : String → String → Except String Unit)
    (files : List FileVersion) (fpat : Option String) (data : DataSet)
    (tmp : String) (fs : FS) (main : FileVersion)
    (S R : List FileWithData) (F PF : Written)
    (hmain : find_main files = some main)
    (hc : TemplateCompiler.compileE (files_to_vfs files) t g
      main.file.file_name (path_join tmp "src") data true = Except.ok (S, F))
    (hh : HtmlCompiler.compileE pdf (path_join tmp "result") S
      = Except.ok (R, PF))
    (haw : ∀ p a, aw p a = Except.ok ()) :
    (render_pdf t g pdf nameR aw files fpat data true tmp fs).1
      = Except.ok (HttpResp.zipStream 200 "application/zip"
          (R.map (fun pr =>
            (NameFactory.make (makeNameTpl nameR fpat) pr.2 (basename pr.1),
             pr.1)))
          (path_join tmp "result.zip"))
    ∧ (fpat = none →
        (render_pdf t g pdf nameR aw files fpat data true tmp fs).1
          = Except.ok (HttpResp.zipStream 200 "application/zip"
              (R.map (fun pr => (basename pr.1, pr.1)))
              (path_join tmp "result.zip"))) := by
  have h1 : (render_pdf t g pdf nameR aw files fpat data true tmp fs).1
      = Except.ok (HttpResp.zipStream 200 "application/zip"
          (R.map (fun pr =>
            (NameFactory.make (makeNameTpl nameR fpat) pr.2 (basename pr.1),
             pr.1)))
          (path_join tmp "result.zip")) := by
    rw [render_pdf_ok_unfold t g pdf nameR aw files fpat data true tmp fs
      main S R F PF hmain hc hh]
    dsimp only []
    unfold packageResponse
    dsimp only []
    rw [writeZipEntries_ok (makeNameTpl nameR fpat) aw haw R]
    rfl
  exact ⟨h1, fun hf => by subst hf; exact h1⟩

/-- C8 witness: a concrete archive render (one Main file, one row) streams
a zip whose single entry falls back to the result's base filename. -/
theorem claim8_archive_packaging_witness :
    (render_pdf (fun _ => Except.ok "B") (fun _ => Except.ok "T")
        (fun _ => Except.ok "P") (fun _ _ => none) (fun _ _ => Except.ok ())
        [⟨⟨"m", FileType.Main⟩, "TPL"⟩] none [[("k", "v")]] true "/w" []).1
      = Except.ok (HttpResp.zipStream 200 "application/zip"
          [("001.pdf", path_join (path_join "/w" "result") "001.pdf")]
          (path_join "/w" "result.zip")) := by
  have h := (claim8_archive_packaging (fun _ => Except.ok "B")
    (fun _ => Except.ok "T") (fun _ => Except.ok "P") (fun _ _ => none)
    (fun _ _ => Except.ok ()) [⟨⟨"m", FileType.Main⟩, "TPL"⟩] none
    [[("k", "v")]] "/w" [] _ _ _ _ _ rfl rfl rfl
    (fun _ _ => rfl)).2 rfl
  rw [h]
  rfl

/-- C6: every render call that gets past the Main-file check leaves the
filesystem exactly as it found it: the temporary directory created at the
start (and everything written beneath it) is removed on every exit path —
normal return of any response as well as an exception raised during
template compilation, PDF compilation or packaging — provided the fresh
temporary name did not collide with a pre-existing path. -/
theorem claim6_tempdir_cleanup
    (t : DataRow → Except String String)
    (g : Option DataRow → Except String String)
    (pdf : String → Except String String)
    (nameR : String → Option DataRow → Option String)
    (aw : String → String → Except String Unit)
    (files : List FileVersion) (fpat : Option String) (data : DataSet)
    (ra : Bool) (tmp : String) (fs : FS) (main : FileVersion)
    (hmain : find_main files = some main)
    (hfresh : ∀ p ∈ fs, underDir tmp p = false) :
    (render_pdf t g pdf nameR aw files fpat data ra tmp fs).2 = fs := by
  have hdirs : ∀ p ∈ ([tmp] ++ [path_join tmp "src", path_join tmp "result"] : FS),
      underDir tmp p = true := by
    intro p hp
    simp only [List.mem_append, List.mem_cons, List.mem_singleton,
      List.not_mem_nil, or_false] at hp
    rcases hp with rfl | rfl | rfl
    · exact underDir_self _
    · exact underDir_join _ "src"
    · exact underDir_join _ "result"
  unfold render_pdf make_temp_dir
  rw [hmain]
  dsimp only []
  cases hc : TemplateCompiler.compileE (files_to_vfs files) t g
      main.file.file_name (path_join tmp "src") data ra with
  | error e =>
    dsimp only []
    simp only [Bool.false_eq_true, if_false]
    rw [List.append_assoc]
    exact filterUnder tmp fs _ hfresh hdirs
  | ok SF =>
    obtain ⟨S, F⟩ := SF
    dsimp only []
    have hFmap : ∀ p ∈ F.map (fun f => f.1), underDir tmp p = true := by
      intro p hp
      rcases List.mem_map.mp hp with ⟨pc, hpc, rfl⟩
      obtain ⟨nm, hnm⟩ := (compileE_ok_shapes (files_to_vfs files) t g
        main.file.file_name (path_join tmp "src") data ra S F hc).2 pc hpc
      rw [hnm]
      exact underDir_join2 _ "src" nm
    cases hh : HtmlCompiler.compileE pdf (path_join tmp "result") S with
    | error e =>
      dsimp only []
      simp only [Bool.false_eq_true, if_false]
      rw [List.append_assoc, List.append_assoc]
      refine filterUnder tmp fs _ hfresh ?_
      intro p hp
      rw [← List.append_assoc] at hp
      rcases List.mem_append.mp hp with hp | hp
      · exact hdirs p hp
      · exact hFmap p hp
    | ok RPF =>
      obtain ⟨R, PF⟩ := RPF
      have hPFmap : ∀ p ∈ PF.map (fun f => f.1), underDir tmp p = true := by
        intro p hp
        obtain ⟨-, hmap⟩ := compileHtmlE_ok_shape pdf (path_join tmp "result")
          S R PF hh
        rw [hmap] at hp
        rcases List.mem_map.mp hp with ⟨sr, hsr, rfl⟩
        exact underDir_join2 _ "result" (splitextRoot (basename sr.1) ++ ".pdf")
      dsimp only []
      simp only [Bool.false_eq_true, if_false]
      rcases packageResponse_snd nameR fpat aw tmp R ra
          (fs ++ [tmp] ++ [path_join tmp "src", path_join tmp "result"]
            ++ F.map (fun f => f.1) ++ PF.map (fun f => f.1)) with hp2 | hp2
      all_goals rw [hp2]
      · rw [List.append_assoc, List.append_assoc, List.append_assoc]
        refine filterUnder tmp fs _ hfresh ?_
        intro p hp
        rw [← List.append_assoc, ← List.append_assoc] at hp
        rcases List.mem_append.mp hp with hp | hp
        · rcases List.mem_append.mp hp with hp | hp
          · exact hdirs p hp
          · exact hFmap p hp
        · exact hPFmap p hp
      · rw [List.append_assoc, List.append_assoc, List.append_assoc,
          List.append_assoc]
        refine filterUnder tmp fs _ hfresh ?_
        intro p hp
        rw [← List.append_assoc, ← List.append_assoc, ← List.append_assoc] at hp
        rcases List.mem_append.mp hp with hp | hp
        · rcases List.mem_append.mp hp with hp | hp
          · rcases List.mem_append.mp hp with hp | hp
            · exact hdirs p hp
            · exact hFmap p hp
          · exact hPFmap p hp
        · rcases List.mem_singleton.mp hp with rfl
          exact underDir_join _ "result.zip"

/-- C6 witness: a concrete successful render leaves a pre-existing path
untouched and removes its temporary directory. -/
theorem claim6_tempdir_cleanup_witness :
    (render_pdf (fun _ => Except.ok "B") (fun _ => Except.ok "T")
        (fun _ => Except.ok "P") (fun _ _ => none) (fun _ _ => Except.ok ())
        [⟨⟨"m", FileType.Main⟩, "TPL"⟩] none [] false "/w" ["/etc/keep"]).2
      = ["/etc/keep"] :=
  claim6_tempdir_cleanup (fun _ => Except.ok "B") (fun _ => Except.ok "T")
    (fun _ => Except.ok "P") (fun _ _ => none) (fun _ _ => Except.ok ())
    [⟨⟨"m", FileType.Main⟩, "TPL"⟩] none [] false "/w" ["/etc/keep"]
    ⟨⟨"m", FileType.Main⟩, "TPL"⟩ rfl (by decide)

/-! ## Heap-extension lemmas for the aliasing model -/

theorem heapExt_refl (h : Heap) : HeapExt h h :=
  ⟨le_refl _, fun _ _ => rfl⟩

theorem heapExt_trans {a b c : Heap} (h1 : HeapExt a b) (h2 : HeapExt b c) :
    HeapExt a c :=
  ⟨le_trans h1.1 h2.1,
   fun i hi => (h2.2 i (lt_of_lt_of_le hi h1.1)).trans (h1.2 i hi)⟩

theorem heapExt_snoc (h : Heap) (v : DataRow) : HeapExt h (h ++ [v]) :=
  ⟨by simp, fun i hi => by
    unfold heapGet
    rw [List.getD_append _ _ _ _ hi]⟩

theorem heapExt_set_of_ge (h h' : Heap) (c : Ref) (v : DataRow)
    (hext : HeapExt h h') (hc : h.length ≤ c) :
    HeapExt h (heapSet h' c v) := by
  constructor
  · rw [heapSet, List.length_set]
    exact hext.1
  · intro i hi
    have hne : c ≠ i := Nat.ne_of_gt (lt_of_lt_of_le hi hc)
    have hget : (heapSet h' c v).getD i [] = h'.getD i [] := by
      unfold heapSet
      rw [List.getD_eq_getElem?_getD, List.getD_eq_getElem?_getD,
        List.getElem?_set_ne hne]
    exact hget.trans (hext.2 i hi)

theorem compileRefsSplit_ext (tplEff : DataRow → String × DataRow)
    (titleEff : Option DataRow → String × Option DataRow) (src_dir : String) :
    ∀ (idx : Nat) (refs : List Ref) (h : Heap),
      HeapExt h (compileRefsSplit tplEff titleEff src_dir idx refs h).2 := by
  intro idx refs
  induction refs generalizing idx with
  | nil => intro h; exact heapExt_refl h
  | cons r rest ih =>
    intro h
    rw [compileRefsSplit]
    dsimp only [heapAlloc]
    refine heapExt_trans ?_ (ih (idx + 1) _)
    refine heapExt_set_of_ge _ _ _ _ ?_ (le_refl _)
    exact heapExt_set_of_ge _ _ _ _ (heapExt_snoc h _) (le_refl _)

theorem foldl_bodyLoop_ext (tplEff : DataRow → String × DataRow) :
    ∀ (refs : List Ref) (h : Heap),
      HeapExt h (refs.foldl (fun hh r =>
        let a := heapAlloc hh (heapGet hh r)
        let b := tplEff (heapGet a.1 a.2)
        heapSet a.1 a.2 b.2) h) := by
  intro refs
  induction refs with
  | nil => intro h; exact heapExt_refl h
  | cons r rest ih =>
    intro h
    rw [List.foldl_cons]
    refine heapExt_trans ?_ (ih _)
    dsimp only [heapAlloc]
    exact heapExt_set_of_ge _ _ _ _ (heapExt_snoc h _) (le_refl _)

theorem compileRefsMerged_ext (tplEff : DataRow → String × DataRow)
    (titleEff : Option DataRow → String × Option DataRow) (src_dir : String)
    (dataRefs : List Ref) (h : Heap) :
    HeapExt h (compileRefsMerged tplEff titleEff src_dir dataRefs h).2 := by
  unfold compileRefsMerged
  rcases hshape : dataRefs with - | ⟨r0, rest⟩
  · exact foldl_bodyLoop_ext tplEff [] h
  · rcases rest with - | ⟨r1, rest2⟩
    · dsimp only [heapAlloc]
      refine heapExt_trans ?_ (foldl_bodyLoop_ext tplEff [r0] _)
      exact heapExt_set_of_ge _ _ _ _ (heapExt_snoc h _) (le_refl _)
    · exact foldl_bodyLoop_ext tplEff (r0 :: r1 :: rest2) h

theorem compileRefs_ext (tplEff : DataRow → String × DataRow)
    (titleEff : Option DataRow → String × Option DataRow) (src_dir : String)
    (dataRefs : List Ref) (split : Bool) (h : Heap) :
    HeapExt h (compileRefs tplEff titleEff src_dir dataRefs split h).2 := by
  unfold compileRefs
  cases split with
  | true => exact compileRefsSplit_ext tplEff titleEff src_dir 1 dataRefs h
  | false => exact compileRefsMerged_ext tplEff titleEff src_dir dataRefs h

/-- C10: the caller's dataset is never mutated at the top level: whatever
the (possibly mutating) title and body renderers do to the row dicts they
are handed, the template compiler hands them only fresh copies
(`dict(row)`), so after `compile` every row dict the caller's dataset
references holds exactly the top-level entries it held before. -/
theorem claim10_no_caller_row_mutation
    (tplEff : DataRow → String × DataRow)
    (titleEff : Option DataRow → String × Option DataRow)
    (src_dir : String) (dataRefs : List Ref) (split : Bool) (h : Heap)
    (href : ∀ r ∈ dataRefs, r < h.length) :
    ∀ r ∈ dataRefs,
      heapGet (compileRefs tplEff titleEff src_dir dataRefs split h).2 r
        = heapGet h r := by
  intro r hr
  exact (compileRefs_ext tplEff titleEff src_dir dataRefs split h).2
    r (href r hr)

/-- C10 witness: a body renderer that inserts a new field into the dict it
is handed does not change the caller's row, in split mode or merged
mode. -/
theorem claim10_no_caller_row_mutation_witness :
    heapGet (compileRefs (fun row => ("B", ("extra", "1") :: row))
        (fun rowOpt => ("T", rowOpt.map (fun row => ("t", "2") :: row)))
        "/s" [0] true [[("a", "1")]]).2 0 = [("a", "1")]
    ∧ heapGet (compileRefs (fun row => ("B", ("extra", "1") :: row))
        (fun rowOpt => ("T", rowOpt.map (fun row => ("t", "2") :: row)))
        "/s" [0] false [[("a", "1")]]).2 0 = [("a", "1")] := by
  constructor
  · exact claim10_no_caller_row_mutation
      (fun row => ("B", ("extra", "1") :: row))
      (fun rowOpt => ("T", rowOpt.map (fun row => ("t", "2") :: row)))
      "/s" [0] true [[("a", "1")]] (by decide) 0 (by decide)
  · exact claim10_no_caller_row_mutation
      (fun row => ("B", ("extra", "1") :: row))
      (fun rowOpt => ("T", rowOpt.map (fun row => ("t", "2") :: row)))
      "/s" [0] false [[("a", "1")]] (by decide) 0 (by decide)

end Emprinten
